import Mathlib

/-!
Verification of the Game-of-Life simulation core of `src/main.cpp`
(Torus Game of Life).

The C++ source stores the grid in flat row-major buffers
(`std::vector<Cell> currentGen`, `nextGen` of size `GRID_SIZE`, and a
parallel `Color pixels[GRID_SIZE]` buffer).  Cells are `uint8_t`
values, `0` = dead, nonzero = alive; the code only ever writes `0` or
`1`.  We model cells as `Nat`, buffers as `List Nat` resp. `List Color`,
and the per-frame update `UpdateGameOfLife` as a function on that state.
The grid dimensions appear in the source as the compile-time constants
`GRID_WIDTH = GRID_HEIGHT = 100`; the embedding takes the dimensions
`W`, `H` as parameters and defines the constants alongside, so that the
source program is the instantiation at `GRID_WIDTH`, `GRID_HEIGHT`.
C++ `int` arithmetic on wrapped coordinates (which can go through `-1`)
is carried out in `Int` and converted back with `Int.toNat`, exactly
where the source computes a possibly negative intermediate value.
-/

namespace TorusGoL

/-- raylib `Color`: four 8-bit channels r, g, b, a. -/
structure Color where
  r : Nat
  g : Nat
  b : Nat
  a : Nat
deriving Repr, DecidableEq

/-- raylib `BLACK` is `(Color){ 0, 0, 0, 255 }`. -/
def BLACK : Color := ⟨0, 0, 0, 255⟩

/-- `Color CYAN = (Color){ 0, 255, 200, 255 };` (src/main.cpp line 16),
the same literal the pixel writes use (lines 57 and 70). -/
def CYAN : Color := ⟨0, 255, 200, 255⟩

/-- `const int GRID_WIDTH = 100;` (src/main.cpp line 9). -/
def GRID_WIDTH : Nat := 100

/-- `const int GRID_HEIGHT = 100;` (src/main.cpp line 10). -/
def GRID_HEIGHT : Nat := 100

/-- `const int GRID_SIZE = GRID_WIDTH * GRID_HEIGHT;` (line 11). -/
def GRID_SIZE : Nat := GRID_WIDTH * GRID_HEIGHT

/-- The global simulation state: `currentGen`, `nextGen` and the
`pixels` color buffer (src/main.cpp lines 18-20). -/
structure GolState where
  currentGen : List Nat
  nextGen : List Nat
  pixels : List Color
deriving Repr, DecidableEq

/-- `GetIndex` (src/main.cpp lines 23-29), parametrised by the grid
dimensions the source reads from the globals `GRID_WIDTH`,
`GRID_HEIGHT`:

    if (x < 0) x = GRID_WIDTH - 1;
    else if (x >= GRID_WIDTH) x = 0;
    if (y < 0) y = GRID_HEIGHT - 1;
    else if (y >= GRID_HEIGHT) y = 0;
    return y * GRID_WIDTH + x;
-/
def GetIndex (W H : Int) (x y : Int) : Int :=
  let x1 : Int := if x < 0 then W - 1 else if x ≥ W then 0 else x
  let y1 : Int := if y < 0 then H - 1 else if y ≥ H then 0 else y
  y1 * W + x1

/-- The `neighbors` sum of `UpdateGameOfLife` (src/main.cpp lines
33-47): row offsets `y_offset`, `y_up`, `y_dn`, columns `x_left`,
`x_right`, and the eight reads of `currentGen`.  The C++ arithmetic is
over `int`; the subexpressions `y - 1 + GRID_HEIGHT` and
`x - 1 + GRID_WIDTH` are computed in `Int` and converted back to a
`Nat` index with `Int.toNat` (they are nonnegative for `H > 0`,
`W > 0`).  Out-of-range reads default to `0`, matching a byte the loop
never reaches; the index-bounds theorem below shows every index is in
range. -/
def neighbors (W H : Nat) (currentGen : List Nat) (x y : Nat) : Nat :=
  let y_offset := y * W
  let y_up := (((y : Int) - 1 + H) % H).toNat * W
  let y_dn := ((y + 1) % H) * W
  let x_left := (((x : Int) - 1 + W) % W).toNat
  let x_right := (x + 1) % W
  currentGen.getD (y_up + x_left) 0 + currentGen.getD (y_up + x) 0 +
    currentGen.getD (y_up + x_right) 0 +
    currentGen.getD (y_offset + x_left) 0 + currentGen.getD (y_offset + x_right) 0 +
    currentGen.getD (y_dn + x_left) 0 + currentGen.getD (y_dn + x) 0 +
    currentGen.getD (y_dn + x_right) 0

/-- The per-cell body of `UpdateGameOfLife` (src/main.cpp lines 49-54):

    int idx = y_offset + x;
    if (currentGen[idx]) {
        nextGen[idx] = (neighbors == 2 || neighbors == 3);
    } else {
        nextGen[idx] = (neighbors == 3);
    }

The C++ boolean stored into the `uint8_t` cell becomes `1` or `0`. -/
def nextCell (W H : Nat) (currentGen : List Nat) (x y : Nat) : Nat :=
  let n := neighbors W H currentGen x y
  if currentGen.getD (y * W + x) 0 ≠ 0 then
    if n = 2 ∨ n = 3 then 1 else 0
  else
    if n = 3 then 1 else 0

/-- The contents of `nextGen` after the double loop of
`UpdateGameOfLife` (src/main.cpp lines 32-59): the loop writes
`nextGen[y*W + x]` for every `y < H`, `x < W`, covering each flat index
`i < W*H` exactly once with `y = i / W`, `x = i % W`. -/
def stepGrid (W H : Nat) (currentGen : List Nat) : List Nat :=
  (List.range (W * H)).map (fun i => nextCell W H currentGen (i % W) (i / W))

/-- The pixel written alongside each cell (src/main.cpp line 57):
`pixels[idx] = nextGen[idx] ? (Color){ 0, 255, 200, 255 } : BLACK;`. -/
def pixelOf (c : Nat) : Color := if c ≠ 0 then CYAN else BLACK

/-- `UpdateGameOfLife` (src/main.cpp lines 31-61): computes the new
`nextGen` and the matching `pixels` in one pass, then performs
`currentGen = nextGen;`. -/
def UpdateGameOfLife (W H : Nat) (s : GolState) : GolState :=
  let newNext := stepGrid W H s.currentGen
  ⟨newNext, newNext, newNext.map pixelOf⟩

/-- The initial seeding loop in `main` (src/main.cpp lines 68-71):

    currentGen[i] = (GetRandomValue(0, 100) > 85);
    pixels[i] = currentGen[i] ? (Color){ 0, 255, 200, 255 } : BLACK;

The random draws are modelled by an oracle `seed : Nat → Nat` giving
the value of `GetRandomValue(0, 100)` at position `i`.  `nextGen` keeps
its zero-fill from its global declaration (line 19). -/
def seedInit (W H : Nat) (seed : Nat → Nat) : GolState :=
  let cur := (List.range (W * H)).map (fun i => if seed i > 85 then 1 else 0)
  ⟨cur, List.replicate (W * H) 0, cur.map pixelOf⟩

/-! ### Basic index lemmas -/

theorem getD_map_range {α : Type} (n : Nat) (f : Nat → α) (d : α) (i : Nat)
    (h : i < n) : ((List.range n).map f).getD i d = f i := by
  rw [List.getD_eq_getElem _ _ (by simpa using h)]
  simp

theorem flat_index_lt (W H x y : Nat) (hx : x < W) (hy : y < H) :
    y * W + x < W * H := by
  calc y * W + x < y * W + W := by omega
    _ = (y + 1) * W := by ring
    _ ≤ H * W := Nat.mul_le_mul_right W hy
    _ = W * H := Nat.mul_comm H W

theorem flat_index_mod (W x y : Nat) (hx : x < W) : (y * W + x) % W = x := by
  rw [Nat.add_comm, Nat.add_mul_mod_self_right, Nat.mod_eq_of_lt hx]

theorem flat_index_div (W x y : Nat) (hW : 0 < W) (hx : x < W) :
    (y * W + x) / W = y := by
  rw [Nat.add_comm, Nat.mul_comm, Nat.add_mul_div_left _ _ hW,
    Nat.div_eq_of_lt hx]
  omega

/-- The C++ wrap `(v - 1 + n) % n` on an `int` holding a natural `v`,
rewritten as a `Nat` computation. -/
theorem wrapSub_eq (n v : Nat) (hn : 0 < n) :
    (((v : Int) - 1 + n) % n).toNat = (v + (n - 1)) % n := by
  have h1 : ((v : Int) - 1 + n) = ((v + (n - 1) : Nat) : Int) := by omega
  rw [h1, ← Int.natCast_mod, Int.toNat_natCast]

theorem wrapSub_lt (n v : Nat) (hn : 0 < n) :
    (((v : Int) - 1 + n) % n).toNat < n := by
  rw [wrapSub_eq n v hn]
  exact Nat.mod_lt _ hn

theorem stepGrid_length (W H : Nat) (cur : List Nat) :
    (stepGrid W H cur).length = W * H := by
  simp [stepGrid]

theorem stepGrid_getD (W H : Nat) (hW : 0 < W) (cur : List Nat) (x y : Nat)
    (hx : x < W) (hy : y < H) :
    (stepGrid W H cur).getD (y * W + x) 0 = nextCell W H cur x y := by
  rw [stepGrid, getD_map_range _ _ _ _ (flat_index_lt W H x y hx hy),
    flat_index_mod W x y hx, flat_index_div W x y hW hx]

theorem getD_le_one (l : List Nat) (h : ∀ c ∈ l, c ≤ 1) (i : Nat) :
    l.getD i 0 ≤ 1 := by
  rcases Nat.lt_or_ge i l.length with hi | hi
  · rw [List.getD_eq_getElem _ _ hi]
    exact h _ (List.getElem_mem hi)
  · rw [List.getD_eq_default _ _ hi]
    exact Nat.zero_le 1

/-! ### C1: the Conway rule applied by the step -/

/-- C1: for every cell index `idx = y*W + x` processed by
`UpdateGameOfLife`, with `n` the live-neighbor count of that cell in
the current generation: if `currentGen[idx]` is alive (nonzero), the
cell in the next generation is alive iff `n = 2` or `n = 3`; if
`currentGen[idx]` is dead (zero), it is alive in the next generation
iff `n = 3`. -/
theorem update_conway_rule (W H : Nat) (s : GolState) (x y : Nat)
    (hW : 0 < W) (_hH : 0 < H) (hx : x < W) (hy : y < H) :
    (s.currentGen.getD (y * W + x) 0 ≠ 0 →
      ((UpdateGameOfLife W H s).currentGen.getD (y * W + x) 0 ≠ 0 ↔
        (neighbors W H s.currentGen x y = 2 ∨ neighbors W H s.currentGen x y = 3))) ∧
    (s.currentGen.getD (y * W + x) 0 = 0 →
      ((UpdateGameOfLife W H s).currentGen.getD (y * W + x) 0 ≠ 0 ↔
        neighbors W H s.currentGen x y = 3)) := by
  have hstep : (UpdateGameOfLife W H s).currentGen = stepGrid W H s.currentGen := rfl
  rw [hstep, stepGrid_getD W H hW s.currentGen x y hx hy]
  constructor
  · intro h
    simp only [nextCell, if_pos h]
    split_ifs with hn <;> simp [hn]
  · intro h
    have h0 : ¬s.currentGen.getD (y * W + x) 0 ≠ 0 := by simpa using h
    simp only [nextCell, if_neg h0]
    split_ifs with hn <;> simp [hn]

theorem update_conway_rule_witness :
    (0 : Nat) < 3 ∧
      (UpdateGameOfLife 3 3 ⟨[1, 1, 1, 0, 0, 0, 0, 0, 0], [], []⟩).currentGen.getD 0 0 ≠ 0 :=
  ⟨by decide,
    ((update_conway_rule 3 3 ⟨[1, 1, 1, 0, 0, 0, 0, 0, 0], [], []⟩ 0 0
        (by decide) (by decide) (by decide) (by decide)).1
      (by decide)).mpr (Or.inl (by decide))⟩

/-! ### C2: the neighbor count is the sum over the 8 wrapped coordinates -/

/-- C2: for every cell `(x, y)` with `x < W`, `y < H`, the neighbor
count computed by the step equals the sum of the current-generation
values at the 8 coordinates combining x-coordinates `(x-1+W)%W`, `x`,
`(x+1)%W` with y-coordinates `(y-1+H)%H`, `y`, `(y+1)%H`, excluding the
center; and when the grid holds only 0/1 cells each summand is 0 or 1. -/
theorem neighbors_coord_sum (W H : Nat) (cur : List Nat) (x y : Nat)
    (hW : 0 < W) (hH : 0 < H) (h01 : ∀ c ∈ cur, c ≤ 1) :
    (neighbors W H cur x y =
      cur.getD (((y + H - 1) % H) * W + ((x + W - 1) % W)) 0 +
        cur.getD (((y + H - 1) % H) * W + x) 0 +
        cur.getD (((y + H - 1) % H) * W + ((x + 1) % W)) 0 +
        cur.getD (y * W + ((x + W - 1) % W)) 0 +
        cur.getD (y * W + ((x + 1) % W)) 0 +
        cur.getD (((y + 1) % H) * W + ((x + W - 1) % W)) 0 +
        cur.getD (((y + 1) % H) * W + x) 0 +
        cur.getD (((y + 1) % H) * W + ((x + 1) % W)) 0) ∧
    (∀ i, cur.getD i 0 ≤ 1) := by
  constructor
  · simp only [neighbors]
    rw [wrapSub_eq W x hW, wrapSub_eq H y hH,
      show x + (W - 1) = x + W - 1 by omega, show y + (H - 1) = y + H - 1 by omega]
  · exact getD_le_one cur h01

theorem neighbors_coord_sum_witness :
    (0 : Nat) < 3 ∧
      neighbors 3 3 [1, 0, 1, 0, 0, 0, 0, 1, 0] 1 1 =
        [1, 0, 1, 0, 0, 0, 0, 1, 0].getD (0 * 3 + 0) 0 +
          [1, 0, 1, 0, 0, 0, 0, 1, 0].getD (0 * 3 + 1) 0 +
          [1, 0, 1, 0, 0, 0, 0, 1, 0].getD (0 * 3 + 2) 0 +
          [1, 0, 1, 0, 0, 0, 0, 1, 0].getD (1 * 3 + 0) 0 +
          [1, 0, 1, 0, 0, 0, 0, 1, 0].getD (1 * 3 + 2) 0 +
          [1, 0, 1, 0, 0, 0, 0, 1, 0].getD (2 * 3 + 0) 0 +
          [1, 0, 1, 0, 0, 0, 0, 1, 0].getD (2 * 3 + 1) 0 +
          [1, 0, 1, 0, 0, 0, 0, 1, 0].getD (2 * 3 + 2) 0 :=
  ⟨by decide,
    (neighbors_coord_sum 3 3 [1, 0, 1, 0, 0, 0, 0, 1, 0] 1 1
        (by decide) (by decide) (by decide)).1⟩

/-! ### C10: every buffer index used by the step is in bounds -/

/-- The flat indices at which one iteration of the inner loop of
`UpdateGameOfLife` (src/main.cpp lines 39-58) reads `currentGen` or
writes `nextGen` and `pixels`, for the cell `(x, y)`: the eight
neighbor reads of lines 44-47 and the center index `idx = y_offset + x`
of line 49. -/
def stepReadIndices (W H x y : Nat) : List Nat :=
  let y_offset := y * W
  let y_up := (((y : Int) - 1 + H) % H).toNat * W
  let y_dn := ((y + 1) % H) * W
  let x_left := (((x : Int) - 1 + W) % W).toNat
  let x_right := (x + 1) % W
  [y_up + x_left, y_up + x, y_up + x_right,
    y_offset + x_left, y_offset + x, y_offset + x_right,
    y_dn + x_left, y_dn + x, y_dn + x_right]

/-- C10: for `0 ≤ x < W` and `0 ≤ y < H`, every index used by the step
to read `currentGen` or to write `nextGen` and `pixels` lies within
`[0, W*H)`, so no buffer access during a step is out of bounds. -/
theorem step_indices_in_bounds (W H x y : Nat) (hW : 0 < W) (hH : 0 < H)
    (hx : x < W) (hy : y < H) :
    ∀ i ∈ stepReadIndices W H x y, i < W * H := by
  have hxl := wrapSub_lt W x hW
  have hxr : (x + 1) % W < W := Nat.mod_lt _ hW
  have hyu := wrapSub_lt H y hH
  have hyd : (y + 1) % H < H := Nat.mod_lt _ hH
  simp only [stepReadIndices, List.mem_cons, List.not_mem_nil, or_false]
  rintro i (rfl | rfl | rfl | rfl | rfl | rfl | rfl | rfl | rfl)
  · exact flat_index_lt W H _ _ hxl hyu
  · exact flat_index_lt W H _ _ hx hyu
  · exact flat_index_lt W H _ _ hxr hyu
  · exact flat_index_lt W H _ _ hxl hy
  · exact flat_index_lt W H _ _ hx hy
  · exact flat_index_lt W H _ _ hxr hy
  · exact flat_index_lt W H _ _ hxl hyd
  · exact flat_index_lt W H _ _ hx hyd
  · exact flat_index_lt W H _ _ hxr hyd

theorem step_indices_in_bounds_witness :
    (0 : Nat) < 100 ∧ ∀ i ∈ stepReadIndices 100 100 0 0, i < 100 * 100 :=
  ⟨by decide,
    step_indices_in_bounds 100 100 0 0 (by decide) (by decide) (by decide) (by decide)⟩

/-! ### C3: the pixel buffer always depicts the current generation -/

theorem pixelOf_spec (v : Nat) :
    (pixelOf v = CYAN ↔ v ≠ 0) ∧ (v = 0 → pixelOf v = BLACK) := by
  by_cases hv : v = 0 <;> simp [pixelOf, hv, BLACK, CYAN]

theorem map_pixelOf_getD (l : List Nat) (i : Nat) (hi : i < l.length) :
    (l.map pixelOf).getD i BLACK = pixelOf (l.getD i 0) := by
  rw [List.getD_eq_getElem _ _ (by simpa using hi), List.getElem_map,
    List.getD_eq_getElem _ _ hi]

theorem pix_cur_consistent (l : List Nat) (i : Nat) (hi : i < l.length) :
    ((l.map pixelOf).getD i BLACK = CYAN ↔ l.getD i 0 ≠ 0) ∧
      (l.getD i 0 = 0 → (l.map pixelOf).getD i BLACK = BLACK) := by
  rw [map_pixelOf_getD l i hi]
  exact pixelOf_spec _

/-- C3: immediately after `UpdateGameOfLife` returns, for every
`i < W*H` the entry `pixels[i]` equals the foreground color
`(0, 255, 200, 255)` iff `currentGen[i]` is alive, and equals `BLACK`
when it is dead; and the same consistency holds right after the initial
seeding in `main`, before the first step. -/
theorem pixels_match_current (W H : Nat) (s : GolState) (seed : Nat → Nat)
    (i : Nat) (hi : i < W * H) :
    (((UpdateGameOfLife W H s).pixels.getD i BLACK = CYAN ↔
        (UpdateGameOfLife W H s).currentGen.getD i 0 ≠ 0) ∧
      ((UpdateGameOfLife W H s).currentGen.getD i 0 = 0 →
        (UpdateGameOfLife W H s).pixels.getD i BLACK = BLACK)) ∧
    (((seedInit W H seed).pixels.getD i BLACK = CYAN ↔
        (seedInit W H seed).currentGen.getD i 0 ≠ 0) ∧
      ((seedInit W H seed).currentGen.getD i 0 = 0 →
        (seedInit W H seed).pixels.getD i BLACK = BLACK)) := by
  constructor
  · exact pix_cur_consistent (stepGrid W H s.currentGen) i
      (by rw [stepGrid_length]; exact hi)
  · exact pix_cur_consistent
      ((List.range (W * H)).map (fun j => if seed j > 85 then 1 else 0)) i
      (by simpa using hi)

theorem pixels_match_current_witness :
    (0 : Nat) < 2 * 2 ∧
      ((UpdateGameOfLife 2 2 ⟨[1, 0, 0, 0], [], []⟩).pixels.getD 0 BLACK = CYAN ↔
        (UpdateGameOfLife 2 2 ⟨[1, 0, 0, 0], [], []⟩).currentGen.getD 0 0 ≠ 0) :=
  ⟨by decide,
    (pixels_match_current 2 2 ⟨[1, 0, 0, 0], [], []⟩ (fun _ => 0) 0 (by decide)).1.1⟩

/-! ### C4: the step is deterministic, a function of the current grid only -/

/-- C4: the step is deterministic: every field of the state after any
sequence of `N + 1` steps is a function of the current-generation grid
alone; two runs from bit-identical current grids produce bit-identical
grids and pixel buffers, with no randomness or hidden state consulted
after seeding. -/
theorem update_deterministic (W H : Nat) (s1 s2 : GolState)
    (h : s1.currentGen = s2.currentGen) (N : Nat) :
    (UpdateGameOfLife W H)^[N + 1] s1 = (UpdateGameOfLife W H)^[N + 1] s2 := by
  have h1 : UpdateGameOfLife W H s1 = UpdateGameOfLife W H s2 := by
    unfold UpdateGameOfLife
    rw [h]
  induction N with
  | zero => simpa using h1
  | succ n ih =>
    rw [Function.iterate_succ_apply' (UpdateGameOfLife W H) (n + 1) s1,
      Function.iterate_succ_apply' (UpdateGameOfLife W H) (n + 1) s2, ih]

theorem update_deterministic_witness :
    (⟨[1, 0], [9, 9], []⟩ : GolState).currentGen =
        (⟨[1, 0], [0, 0], [CYAN]⟩ : GolState).currentGen ∧
      (UpdateGameOfLife 2 1)^[1] ⟨[1, 0], [9, 9], []⟩ =
        (UpdateGameOfLife 2 1)^[1] ⟨[1, 0], [0, 0], [CYAN]⟩ :=
  ⟨rfl, update_deterministic 2 1 ⟨[1, 0], [9, 9], []⟩ ⟨[1, 0], [0, 0], [CYAN]⟩ rfl 0⟩

/-! ### C6: buffer sizes are preserved by every step -/

/-- C6: after any number of steps from the seeded initial state, the
current, next and pixel buffers all still have length `W * H`, their
construction-time value (the dimensions `W`, `H` are compile-time
constants and never change). -/
theorem buffers_length_invariant (W H : Nat) (seed : Nat → Nat) (N : Nat) :
    ((UpdateGameOfLife W H)^[N] (seedInit W H seed)).currentGen.length = W * H ∧
      ((UpdateGameOfLife W H)^[N] (seedInit W H seed)).nextGen.length = W * H ∧
      ((UpdateGameOfLife W H)^[N] (seedInit W H seed)).pixels.length = W * H := by
  cases N with
  | zero => simp [seedInit]
  | succ n =>
    rw [Function.iterate_succ_apply']
    refine ⟨?_, ?_, ?_⟩ <;> simp [UpdateGameOfLife, stepGrid]

/-! ### C9: the branch-based wrap of GetIndex agrees with the modulo wrap -/

theorem branchWrap_eq_emod (n v : Int) (hn : 0 < n) (h1 : -1 ≤ v) (h2 : v ≤ n) :
    (if v < 0 then n - 1 else if v ≥ n then 0 else v) = (v + n) % n := by
  by_cases hv0 : v < 0
  · have hv : v = -1 := by omega
    subst hv
    rw [if_pos hv0]
    have h3 : (-1 + n) % n = -1 + n := Int.emod_eq_of_lt (by omega) (by omega)
    omega
  · by_cases hvn : v ≥ n
    · have hv : v = n := by omega
      subst hv
      rw [if_neg hv0, if_pos hvn, show v + v = v * 2 by ring, Int.mul_emod_right]
    · rw [if_neg hv0, if_neg hvn, show v + n = v + n * 1 by ring,
        Int.add_mul_emod_self_left, Int.emod_eq_of_lt (by omega) (by omega)]

/-- C9: for every `x` in `[-1, W]` and `y` in `[-1, H]` — the
coordinate range reached by offsetting an in-range coordinate by at
most 1 — the branch-based wrap helper `GetIndex` agrees with the
modulo-based wrap used inside `UpdateGameOfLife`:
`GetIndex x y = ((y + H) % H) * W + ((x + W) % W)`. -/
theorem GetIndex_eq_mod (W H x y : Int) (hW : 0 < W) (hH : 0 < H)
    (hx1 : -1 ≤ x) (hx2 : x ≤ W) (hy1 : -1 ≤ y) (hy2 : y ≤ H) :
    GetIndex W H x y = ((y + H) % H) * W + ((x + W) % W) := by
  simp only [GetIndex]
  rw [branchWrap_eq_emod W x hW hx1 hx2, branchWrap_eq_emod H y hH hy1 hy2]

theorem GetIndex_eq_mod_witness :
    (0 : Int) < 100 ∧
      GetIndex 100 100 (-1) 100 = ((100 + 100) % 100) * 100 + ((-1 + 100) % 100) :=
  ⟨by decide,
    GetIndex_eq_mod 100 100 (-1) 100 (by decide) (by decide) (by decide) (by decide)
      (by decide) (by decide)⟩

/-! ### C8: dimension validation at construction -/

/-- The error taxonomy of spec section 7. -/
inductive InitError where
  | invalidDimension
deriving Repr, DecidableEq

/-- Modelled from the spec: `src/main.cpp` has no width/height-parameterised
constructor — the dimensions are the compile-time constants
`GRID_WIDTH = GRID_HEIGHT = 100` (lines 9-10) and the seeding loop in
`main` (lines 68-71) performs no validation.  What is missing is the
`Initialize(width, height, seedFn)` contract of spec sections 4.1 and 7:
it "Fails with InvalidDimension if width ≤ 0 or height ≤ 0", fatally and
before any step is possible; on positive dimensions it allocates and
seeds the buffers exactly as the source's seeding loop does
(`seedInit`). -/
def InitGrid (width height : Int) (seed : Nat → Nat) : Except InitError GolState :=
  if width ≤ 0 ∨ height ≤ 0 then Except.error InitError.invalidDimension
  else Except.ok (seedInit width.toNat height.toNat seed)

/-- C8: construction fails with `InvalidDimension` whenever
`width ≤ 0` or `height ≤ 0`, the failure being surfaced to the caller
(as the `error` branch of the result, before any step can run); for
positive width and height it succeeds, producing the seeded state. -/
theorem initGrid_dimension_check (width height : Int) (seed : Nat → Nat) :
    (width ≤ 0 ∨ height ≤ 0 →
      InitGrid width height seed = Except.error InitError.invalidDimension) ∧
    (0 < width → 0 < height →
      InitGrid width height seed =
        Except.ok (seedInit width.toNat height.toNat seed)) := by
  constructor
  · intro h
    simp [InitGrid, h]
  · intro h1 h2
    have h : ¬(width ≤ 0 ∨ height ≤ 0) := by omega
    simp [InitGrid, h]

theorem initGrid_dimension_check_witness :
    InitGrid (-3) 7 (fun _ => 0) = Except.error InitError.invalidDimension ∧
      InitGrid 100 100 (fun _ => 0) = Except.ok (seedInit 100 100 (fun _ => 0)) :=
  ⟨(initGrid_dimension_check (-3) 7 (fun _ => 0)).1 (Or.inl (by decide)),
    (initGrid_dimension_check 100 100 (fun _ => 0)).2 (by decide) (by decide)⟩

/-! ### C5: the step commutes with toroidal translation -/

/-- The cell at coordinate `(x, y)` of a flat row-major grid, the
`CellAt` view of spec section 4.1. -/
def cellAtXY (W : Nat) (g : List Nat) (x y : Nat) : Nat := g.getD (y * W + x) 0

/-- Cyclic (toroidal) translation of a flat row-major `W × H` grid by
`(dx, dy)`: the translated grid holds at `(x, y)` the value of `g` at
`((x + dx) % W, (y + dy) % H)`. -/
def translateGrid (W H dx dy : Nat) (g : List Nat) : List Nat :=
  (List.range (W * H)).map
    (fun i => g.getD (((i / W + dy) % H) * W + ((i % W + dx) % W)) 0)

theorem neighbors_cellAtXY (W H : Nat) (hW : 0 < W) (hH : 0 < H)
    (g : List Nat) (x y : Nat) :
    neighbors W H g x y =
      cellAtXY W g ((x + (W - 1)) % W) ((y + (H - 1)) % H) +
        cellAtXY W g x ((y + (H - 1)) % H) +
        cellAtXY W g ((x + 1) % W) ((y + (H - 1)) % H) +
        cellAtXY W g ((x + (W - 1)) % W) y +
        cellAtXY W g ((x + 1) % W) y +
        cellAtXY W g ((x + (W - 1)) % W) ((y + 1) % H) +
        cellAtXY W g x ((y + 1) % H) +
        cellAtXY W g ((x + 1) % W) ((y + 1) % H) := by
  simp only [neighbors, cellAtXY]
  rw [wrapSub_eq W x hW, wrapSub_eq H y hH]

theorem cellAtXY_translate (W H dx dy : Nat) (hW : 0 < W) (g : List Nat)
    (x y : Nat) (hx : x < W) (hy : y < H) :
    cellAtXY W (translateGrid W H dx dy g) x y =
      cellAtXY W g ((x + dx) % W) ((y + dy) % H) := by
  unfold cellAtXY translateGrid
  rw [getD_map_range _ _ _ _ (flat_index_lt W H x y hx hy),
    flat_index_mod W x y hx, flat_index_div W x y hW hx]

theorem wrap_shift_comm (n x a d : Nat) :
    ((x + a) % n + d) % n = ((x + d) % n + a) % n := by
  rw [Nat.mod_add_mod, Nat.mod_add_mod]
  congr 1
  omega

theorem neighbors_translate (W H dx dy : Nat) (hW : 0 < W) (hH : 0 < H)
    (g : List Nat) (x y : Nat) (hx : x < W) (hy : y < H) :
    neighbors W H (translateGrid W H dx dy g) x y =
      neighbors W H g ((x + dx) % W) ((y + dy) % H) := by
  have hxl : (x + (W - 1)) % W < W := Nat.mod_lt _ hW
  have hxr : (x + 1) % W < W := Nat.mod_lt _ hW
  have hyu : (y + (H - 1)) % H < H := Nat.mod_lt _ hH
  have hyd : (y + 1) % H < H := Nat.mod_lt _ hH
  rw [neighbors_cellAtXY W H hW hH _ x y,
    neighbors_cellAtXY W H hW hH g ((x + dx) % W) ((y + dy) % H),
    cellAtXY_translate W H dx dy hW g _ _ hxl hyu,
    cellAtXY_translate W H dx dy hW g _ _ hx hyu,
    cellAtXY_translate W H dx dy hW g _ _ hxr hyu,
    cellAtXY_translate W H dx dy hW g _ _ hxl hy,
    cellAtXY_translate W H dx dy hW g _ _ hxr hy,
    cellAtXY_translate W H dx dy hW g _ _ hxl hyd,
    cellAtXY_translate W H dx dy hW g _ _ hx hyd,
    cellAtXY_translate W H dx dy hW g _ _ hxr hyd,
    wrap_shift_comm W x (W - 1) dx, wrap_shift_comm W x 1 dx,
    wrap_shift_comm H y (H - 1) dy, wrap_shift_comm H y 1 dy]

theorem nextCell_translate (W H dx dy : Nat) (hW : 0 < W) (hH : 0 < H)
    (g : List Nat) (x y : Nat) (hx : x < W) (hy : y < H) :
    nextCell W H (translateGrid W H dx dy g) x y =
      nextCell W H g ((x + dx) % W) ((y + dy) % H) := by
  have hcenter : (translateGrid W H dx dy g).getD (y * W + x) 0 =
      g.getD (((y + dy) % H) * W + ((x + dx) % W)) 0 := by
    have h := cellAtXY_translate W H dx dy hW g x y hx hy
    simpa [cellAtXY] using h
  simp only [nextCell]
  rw [hcenter, neighbors_translate W H dx dy hW hH g x y hx hy]

/-- C5: the step commutes with toroidal translation: stepping the grid
cyclically translated by `(dx, dy)` yields the cyclic translation by
`(dx, dy)` of the stepped grid, so every edge or corner cell behaves
exactly like the equivalent interior configuration shifted there. -/
theorem step_translate_comm (W H dx dy : Nat) (hW : 0 < W) (hH : 0 < H)
    (g : List Nat) :
    stepGrid W H (translateGrid W H dx dy g) =
      translateGrid W H dx dy (stepGrid W H g) := by
  have hmain : ∀ i ∈ List.range (W * H),
      nextCell W H (translateGrid W H dx dy g) (i % W) (i / W) =
        (stepGrid W H g).getD (((i / W + dy) % H) * W + ((i % W + dx) % W)) 0 := by
    intro i hi
    have hiWH : i < W * H := List.mem_range.mp hi
    have hx : i % W < W := Nat.mod_lt _ hW
    have hy : i / W < H := by
      rw [Nat.div_lt_iff_lt_mul hW, Nat.mul_comm]
      exact hiWH
    have hx2 : (i % W + dx) % W < W := Nat.mod_lt _ hW
    have hy2 : (i / W + dy) % H < H := Nat.mod_lt _ hH
    rw [nextCell_translate W H dx dy hW hH g _ _ hx hy,
      stepGrid_getD W H hW g _ _ hx2 hy2]
  exact List.map_congr_left hmain

theorem step_translate_comm_witness :
    (0 : Nat) < 2 ∧
      stepGrid 2 2 (translateGrid 2 2 1 1 [1, 1, 0, 1]) =
        translateGrid 2 2 1 1 (stepGrid 2 2 [1, 1, 0, 1]) :=
  ⟨by decide, step_translate_comm 2 2 1 1 (by decide) (by decide) [1, 1, 0, 1]⟩

/-! ### C7: the blinker oscillates with period 2 -/

/-- A 10 × 10 grid that is dead everywhere except a horizontal line of
3 adjacent live cells at `(3, 4), (4, 4), (5, 4)` (flat indices 43, 44,
45), well away from any wrap self-interaction. -/
def blinkerH : List Nat :=
  (List.range 100).map (fun i => if i = 43 ∨ i = 44 ∨ i = 45 then 1 else 0)

/-- The corresponding vertical line of 3 live cells at
`(4, 3), (4, 4), (4, 5)` (flat indices 34, 44, 54). -/
def blinkerV : List Nat :=
  (List.range 100).map (fun i => if i = 34 ∨ i = 44 ∨ i = 54 then 1 else 0)

/-- The blinker grid as the full simulation state. -/
def blinkerState : GolState := ⟨blinkerH, List.replicate 100 0, []⟩

/-- C7: on a 10 × 10 grid holding only a horizontal 3-cell line away
from wrap self-interaction, one step produces exactly the corresponding
vertical 3-cell line, and a second step returns exactly the original
horizontal configuration: a period-2 oscillator. -/
theorem blinker_oscillates :
    (UpdateGameOfLife 10 10 blinkerState).currentGen = blinkerV ∧
      ((UpdateGameOfLife 10 10)^[2] blinkerState).currentGen = blinkerH := by
  constructor <;> decide

end TorusGoL
